import Mathlib

set_option maxHeartbeats 1000000

/-!
# Verification of the DES_BACKEND question-selection engine

Shallow embedding of the two server variants of this repository:

* the Part A / Part B variant (`src/unnamed/part_000`): spreadsheet
  normalization (`processExcelData`), the upload-time pool validation,
  the requirement catalog for paper types `mid1` / `mid2`, the
  feasibility checks and the constrained random selection of
  `generateQuestions`, and the `/api/generate` route;
* the six-question variant (`src/server.js`): its normalization and the
  pre-selection phase of its `generateQuestions` (pool-size gate, BTL
  requirement determination, and the paper-type dispatch).

JavaScript's `Math.floor(Math.random() * n)` is modelled by an arbitrary
stream of natural numbers `g : Nat → Nat` together with a running draw
counter `k`: the i-th random draw of an execution yields index `g i % n`
over the eligible set of size `n`.  Quantifying over `g` quantifies over
all possible random outcomes.  Thrown JS exceptions are modelled with
`Except String`; the thrown message is the error value.

Question records keep the fields the selection logic reads (`id`,
`unit`, `btLevel`); the pass-through metadata strings (subject, branch,
regulation, ...) are opaque to every algorithm modelled here and are
omitted.
-/

deriving instance DecidableEq for Except

/-- A normalized question record: the fields of the JS question objects
that the selection engine reads.  `btLevel` is kept as a string, exactly
as in the source. -/
structure Question where
  id : Nat
  unit : Nat
  btLevel : String
deriving DecidableEq, Repr

/-- A raw spreadsheet row, reduced to the two cells that determine
whether the row survives normalization: the `B.T Level` cell and the
`Unit` cell (a Roman numeral in the Part A/B variant). -/
structure RawRow where
  btLevelField : String
  unitField : String
deriving DecidableEq, Repr

/-- Model of JavaScript's `String.prototype.trim`, written structurally
over the character list so that it evaluates inside the kernel. -/
def jsTrim (s : String) : String :=
  ⟨((s.data.dropWhile Char.isWhitespace).reverse.dropWhile Char.isWhitespace).reverse⟩

/-- `btLevelRaw.replace(/^L/i, '')`: strip one leading `L` or `l`. -/
def stripLeadingL (s : String) : String :=
  match s.data with
  | [] => s
  | c :: rest => if c = 'L' ∨ c = 'l' then ⟨rest⟩ else s

/-- `romanToInt` of `part_000` lines 168–171: map `I`..`V` (case
insensitively) to 1..5, anything else to 0. -/
def romanToInt (s : String) : Nat :=
  let u : String := ⟨s.data.map Char.toUpper⟩
  if u = "I" then 1
  else if u = "II" then 2
  else if u = "III" then 3
  else if u = "IV" then 4
  else if u = "V" then 5
  else 0

/-- Digit-list to number, used to model `parseInt`. -/
def digitsToNat (l : List Char) : Nat :=
  l.foldl (fun a c => a * 10 + (c.toNat - 48)) 0

/-- Model of JavaScript `parseInt(s) || 0` on the strings that occur as
BT levels: the longest leading digit run, or 0 when there is none. -/
def parseIntJS (s : String) : Nat :=
  let d := s.data.takeWhile Char.isDigit
  if d = [] then 0 else digitsToNat d

/-- One row of `processExcelData` (`part_000` lines 181–213): the id is
the 0-based row index plus one, the unit comes from `romanToInt`, and
the BT level is the trimmed cell with a leading `L` stripped, defaulting
to `"0"` when empty. -/
def normalizeRow (idx : Nat) (row : RawRow) : Question :=
  let b := stripLeadingL (jsTrim row.btLevelField)
  { id := idx + 1
    unit := romanToInt row.unitField
    btLevel := if b = "" then "0" else b }

/-- `processExcelData` of `part_000`: map rows to question records, then
keep only the rows with `unit` between 1 and 5 and a nonempty
(`≠ "0"`) BT level. -/
def processExcelData (rows : List RawRow) : List Question :=
  ((rows.enum.map fun p => normalizeRow p.1 p.2).filter
    fun q => decide (1 ≤ q.unit) && decide (q.unit ≤ 5) && q.btLevel != "0")

/-- `validBTLevels` of the upload handler (`part_000` line 142). -/
def validBTLevels : List String := ["1", "2", "3", "4", "5", "6"]

/-- `validUnits` of the upload handler (`part_000` line 143). -/
def validUnits : List Nat := [1, 2, 3, 4, 5]

/-- Error message of the upload-time pool-size gate (`part_000` line 113). -/
def insufficientUploadMsg (n : Nat) : String :=
  s!"Insufficient questions: got {n}, need at least 17 (5 for Part A, 12 for Part B)"

/-- Error message of the upload-time BTL/unit validation (`part_000` line 150). -/
def invalidQuestionsMsg (n : Nat) : String :=
  s!"Invalid BTL levels or units in {n} questions"

/-- The validation pipeline of the `/api/upload` handler of `part_000`
(lines 106–153): normalize, reject pools smaller than 17, then reject
pools containing a question whose BT level or unit is not in the valid
lists.  The handler's check that the metadata fields of the first row
are nonempty concerns only the pass-through strings omitted from
`Question` and sits between the two modelled gates; it is not modelled. -/
def uploadValidate (rows : List RawRow) : Except String (List Question) :=
  let bank := processExcelData rows
  if bank.length < 17 then .error (insufficientUploadMsg bank.length)
  else
    let invalid := bank.filter fun q =>
      !(validBTLevels.contains q.btLevel) || !(validUnits.contains q.unit)
    if invalid.length ≠ 0 then .error (invalidQuestionsMsg invalid.length)
    else .ok bank

/-- A slot of the output paper: a display label and the required unit
(`questionLabels` / `partALabels` entries of `part_000`). -/
structure Slot where
  label : String
  unit : Nat
deriving DecidableEq, Repr

/-- A Part A unit requirement (`partAUnitRequirements` entries): the
exact number of BTL-1 questions required from a unit. -/
structure PartAReq where
  unit : Nat
  count : Nat
deriving DecidableEq, Repr

/-- A Part B unit requirement (`unitRequirements` entries). -/
structure UnitReq where
  unit : Nat
  minCount : Nat
  maxCount : Nat
deriving DecidableEq, Repr

/-- The level selector of a BTL requirement: either a fixed level string
or the `'random'` marker with its option list. -/
inductive BtlLevel where
  | fixed (level : String)
  | random (options : List String)
deriving DecidableEq, Repr

/-- A BTL requirement (`btlRequirements` entries): a level selector and
a remaining count, decremented as slots are assigned. -/
structure BtlReq where
  level : BtlLevel
  count : Nat
deriving DecidableEq, Repr

/-- The static per-paper-type configuration of `part_000`
`generateQuestions` (steps 2 and 6). -/
structure PaperConfig where
  partAUnitRequirements : List PartAReq
  unitRequirements : List UnitReq
  questionLabels : List Slot
  partALabels : List Slot
deriving DecidableEq, Repr

/-- The `mid1` configuration (`part_000` lines 228–238 and 337–358). -/
def mid1Config : PaperConfig :=
  { partAUnitRequirements := [⟨1, 2⟩, ⟨2, 2⟩, ⟨3, 1⟩]
    unitRequirements := [⟨1, 5, 5⟩, ⟨2, 5, 5⟩, ⟨3, 2, 2⟩]
    questionLabels :=
      [⟨"2a", 1⟩, ⟨"2b", 1⟩, ⟨"3a", 1⟩, ⟨"3b", 1⟩, ⟨"6b", 1⟩,
       ⟨"4a", 2⟩, ⟨"4b", 2⟩, ⟨"5a", 2⟩, ⟨"5b", 2⟩, ⟨"7b", 2⟩,
       ⟨"6a", 3⟩, ⟨"7a", 3⟩]
    partALabels := [⟨"1", 1⟩, ⟨"2", 1⟩, ⟨"3", 2⟩, ⟨"4", 2⟩, ⟨"5", 3⟩] }

/-- The `mid2` configuration (`part_000` lines 239–249 and 359–380). -/
def mid2Config : PaperConfig :=
  { partAUnitRequirements := [⟨3, 1⟩, ⟨4, 2⟩, ⟨5, 2⟩]
    unitRequirements := [⟨3, 2, 2⟩, ⟨4, 5, 5⟩, ⟨5, 5, 5⟩]
    questionLabels :=
      [⟨"2a", 3⟩, ⟨"2b", 3⟩, ⟨"3a", 4⟩, ⟨"3b", 4⟩, ⟨"4a", 4⟩,
       ⟨"4b", 4⟩, ⟨"5a", 4⟩, ⟨"5b", 5⟩, ⟨"6a", 5⟩, ⟨"6b", 5⟩,
       ⟨"7a", 5⟩, ⟨"7b", 5⟩]
    partALabels := [⟨"1", 3⟩, ⟨"2", 4⟩, ⟨"3", 4⟩, ⟨"4", 5⟩, ⟨"5", 5⟩] }

/-- The requirement catalog lookup: paper types other than `mid1` and
`mid2` throw `Invalid paper type` (`part_000` lines 250–252). -/
def paperConfig (t : String) : Except String PaperConfig :=
  if t = "mid1" then .ok mid1Config
  else if t = "mid2" then .ok mid2Config
  else .error "Invalid paper type"

/-- The BTL-1 subpool used for Part A (`part_000` line 222). -/
def partAPool (bank : List Question) : List Question :=
  bank.filter fun q => q.btLevel == "1" && decide (1 ≤ q.unit) && decide (q.unit ≤ 5)

/-- The non-BTL-1 subpool used for Part B (`part_000` line 223). -/
def partBPool (bank : List Question) : List Question :=
  bank.filter fun q => q.btLevel != "1" && decide (1 ≤ q.unit) && decide (q.unit ≤ 5)

/-- Error message of the in-core pool-size gate (`part_000` line 218). -/
def insufficientBankMsg (n : Nat) : String :=
  s!"Insufficient questions in question bank: got {n}, need at least 17 (5 for Part A, 12 for Part B)"

/-- The Part A feasibility loop (`part_000` lines 255–260): the first
unit whose BTL-1 count falls below its requirement produces the error. -/
def checkPartAReqs (partA : List Question) (reqs : List PartAReq) : Option String :=
  reqs.findSome? fun r =>
    let c := (partA.filter fun q => q.unit == r.unit).length
    let u := r.unit
    let n := r.count
    if c < r.count then some s!"Insufficient BTL L1 questions for Unit {u}: got {c}, need {n}"
    else none

/-- The Part B feasibility loop (`part_000` lines 263–268). -/
def checkPartBReqs (partB : List Question) (reqs : List UnitReq) : Option String :=
  reqs.findSome? fun r =>
    let c := (partB.filter fun q => q.unit == r.unit).length
    let u := r.unit
    let m := r.minCount
    if c < r.minCount then some s!"Insufficient BTL L2-L6 questions for Unit {u}: got {c}, need {m}"
    else none

/-- Insertion-ordered set insertion, modelling `Set.prototype.add`. -/
def insertBTL (l : List String) (x : String) : List String :=
  if x ∈ l then l else l ++ [x]

/-- `availableBTLs` (`part_000` lines 271–282): the distinct BT levels
of a pool in first-occurrence order, scanning units 1..5 in order. -/
def availableBTLs (pool : List Question) : List String :=
  (List.range' 1 5).foldl
    (fun acc u => (pool.filter fun q => q.unit == u).foldl
      (fun a q => insertBTL a q.btLevel) acc)
    []

/-- The numeric BT levels of a pool (`parseInt(q.btLevel) || 0`,
filtered positive; `part_000` line 287). -/
def btLevelsNums (pool : List Question) : List Nat :=
  (pool.map fun q => parseIntJS q.btLevel).filter fun n => 0 < n

/-- The `Unsupported case` message of `part_000` line 330; the JS
template interpolates the spread set, which joins with `,`. -/
def unsupportedMsg (maxBTL : Nat) (btls : List String) : String :=
  let s := String.intercalate "," btls
  s!"Unsupported case: Max BTL = {maxBTL} with BTLs ({s})."

/-- Steps 4–5 of `part_000` `generateQuestions` (lines 287–331):
determine the maximum numeric BT level of the Part B pool and the
resulting BTL requirement list. -/
def btlRequirementsFor (partB : List Question) : Except String (List BtlReq) :=
  let nums := btLevelsNums partB
  let btls := availableBTLs partB
  if nums = [] then .error "No valid BTL levels found in Part B question bank"
  else
    let maxBTL := nums.foldl Nat.max 0
    if maxBTL = 6 then
      .ok [⟨.fixed "2", 4⟩, ⟨.fixed "3", 4⟩, ⟨.fixed "4", 2⟩, ⟨.random ["5", "6"], 2⟩]
    else if maxBTL = 5 then
      .ok [⟨.fixed "2", 4⟩, ⟨.fixed "3", 4⟩, ⟨.fixed "4", 2⟩, ⟨.random ["5", "3"], 2⟩]
    else if maxBTL = 4 then
      .ok [⟨.fixed "2", 4⟩, ⟨.fixed "3", 4⟩, ⟨.fixed "4", 2⟩, ⟨.random ["3", "4"], 2⟩]
    else if maxBTL = 3 then
      .ok [⟨.fixed "2", 5⟩, ⟨.fixed "3", 5⟩, ⟨.random ["2", "3"], 2⟩]
    else if maxBTL = 2 ∧ "2" ∈ btls then
      .ok [⟨.fixed "2", 12⟩]
    else if btls.length = 1 then
      .ok [⟨.fixed (btls.headD ""), 12⟩]
    else .error (unsupportedMsg maxBTL btls)

/-- The complete pre-sampling phase of `part_000` `generateQuestions`
(lines 217–387): the pool-size gate, the Part A/Part B pool split, the
catalog lookup, both unit-count feasibility loops, and the BTL
requirement determination.  None of these steps reads the random
stream; `generateQuestions` below consults this function first and only
then starts sampling. -/
def feasCheck (bank : List Question) (t : String) :
    Except String (List Question × List Question × PaperConfig × List BtlReq × List String) :=
  if bank.length < 17 then .error (insufficientBankMsg bank.length)
  else
    match paperConfig t with
    | .error e => .error e
    | .ok cfg =>
      match checkPartAReqs (partAPool bank) cfg.partAUnitRequirements with
      | some e => .error e
      | none =>
        match checkPartBReqs (partBPool bank) cfg.unitRequirements with
        | some e => .error e
        | none =>
          match btlRequirementsFor (partBPool bank) with
          | .error e => .error e
          | .ok reqs =>
            .ok (partAPool bank, partBPool bank, cfg, reqs, availableBTLs (partBPool bank))

/-- A selected question together with its slot label (the
`{...q, label, part}` objects pushed by both selection loops; the
constant `part` marker is omitted). -/
structure SelQ where
  q : Question
  label : String
deriving DecidableEq, Repr

/-- Indexing by a random draw: `l[r % l.length]`.  On the empty list
`r % 0 = r` and the lookup is `none`, which coincides exactly with the
source's emptiness checks before indexing. -/
def pickIndexed (l : List Question) (r : Nat) : Option Question :=
  l[r % l.length]?

/-- Bump a unit counter at one unit (`unitCount[q.unit]++`). -/
def bump (cnt : Nat → Nat) (u : Nat) : Nat → Nat :=
  fun v => if v = u then cnt v + 1 else cnt v

/-- `pickQuestionFromUnit` of `selectPartAQuestions` (`part_000` lines
395–405): draw uniformly from the remaining BTL-1 questions of the
required unit, failing when there are none. -/
def pickPartA (remaining : List Question) (u : Nat) (r : Nat) : Except String Question :=
  match pickIndexed (remaining.filter fun x => x.unit == u && x.btLevel == "1") r with
  | none => .error s!"No BTL L1 questions available for Unit {u}"
  | some x => .ok x

/-- The Part A slot loop (`part_000` lines 407–410).  The picked
question is removed from the working copy by id and the unit counter is
bumped, as in the source; `k` is the running random-draw counter. -/
def selectPartALoop (g : Nat → Nat) :
    List Slot → List Question → (Nat → Nat) → List SelQ → Nat →
    Except String (List SelQ × (Nat → Nat) × Nat)
  | [], _, cnt, acc, k => .ok (acc, cnt, k)
  | s :: rest, remaining, cnt, acc, k =>
    match pickPartA remaining s.unit (g k) with
    | .error e => .error e
    | .ok x =>
      selectPartALoop g rest (remaining.filter fun r => r.id != x.id)
        (bump cnt x.unit) (acc ++ [⟨x, s.label⟩]) (k + 1)

/-- The Part A post-selection validation (`part_000` lines 413–417). -/
def validatePartACounts (cnt : Nat → Nat) (reqs : List PartAReq) : Option String :=
  reqs.findSome? fun r =>
    let u := r.unit
    let n := cnt r.unit
    let c := r.count
    if n ≠ r.count then some s!"Unit {u} has {n} questions, needs exactly {c}"
    else none

/-- `selectPartAQuestions` (`part_000` lines 390–422). -/
def selectPartAQuestions (partA : List Question) (cfg : PaperConfig) (g : Nat → Nat)
    (k : Nat) : Except String (List SelQ × Nat) :=
  match selectPartALoop g cfg.partALabels partA (fun _ => 0) [] k with
  | .error e => .error e
  | .ok (sel, cnt, k') =>
    match validatePartACounts cnt cfg.partAUnitRequirements with
    | some e => .error e
    | none => .ok (sel, k')

/-- Error message of the Part B picker (`part_000` line 438). -/
def noQuestionsMsg (u : Nat) : String :=
  s!"No questions available for Unit {u}"

/-- The exception JavaScript raises at `part_000` line 434 when
`unitReqs.find(...)` is `undefined` and `.maxCount` is read; unreachable
for the catalog's requirement sets, where every slot's unit has a
requirement entry. -/
def maxCountTypeErrorMsg : String :=
  "TypeError: Cannot read properties of undefined (reading maxCount)"

/-- `pickQuestionFromUnit` of `selectPartBQuestions` (`part_000` lines
431–446): restrict the remaining questions to the slot's unit, prefer
those matching the requested BT level, but fall back to the whole unit
subset when there is no match **or** when the unit counter has already
reached the unit's `maxCount` (JS evaluates the `||` left-to-right, so
the `find` only runs when matches exist). -/
def pickPartB (remaining : List Question) (cnt : Nat → Nat) (unitReqs : List UnitReq)
    (btl : String) (u : Nat) (r : Nat) : Except String Question :=
  if ((remaining.filter fun x => x.unit == u).filter fun x => x.btLevel == btl).length = 0 then
    match pickIndexed (remaining.filter fun x => x.unit == u) r with
    | none => .error (noQuestionsMsg u)
    | some x => .ok x
  else
    match unitReqs.find? (fun rq => rq.unit == u) with
    | none => .error maxCountTypeErrorMsg
    | some rq =>
      match pickIndexed
          (if rq.maxCount ≤ cnt u then remaining.filter fun x => x.unit == u
           else (remaining.filter fun x => x.unit == u).filter fun x => x.btLevel == btl) r with
      | none => .error (noQuestionsMsg u)
      | some x => .ok x

/-- The picker as worded by the spec (§4.2 step 3): pick from the
remaining items matching the slot's unit and the needed difficulty, and
fall back to the items matching only the unit exactly when no item
matches both.  Written for comparison with `pickPartB`. -/
def pickPartBSpec (remaining : List Question) (_cnt : Nat → Nat) (_unitReqs : List UnitReq)
    (btl : String) (u : Nat) (r : Nat) : Except String Question :=
  if ((remaining.filter fun x => x.unit == u).filter fun x => x.btLevel == btl).length = 0 then
    match pickIndexed (remaining.filter fun x => x.unit == u) r with
    | none => .error (noQuestionsMsg u)
    | some x => .ok x
  else
    match pickIndexed ((remaining.filter fun x => x.unit == u).filter fun x => x.btLevel == btl) r with
    | none => .error (noQuestionsMsg u)
    | some x => .ok x

/-- Decrement the first BTL requirement with a positive remaining count
(`req.count--` inside the `for`/`break` of `part_000` lines 450–456). -/
def decrementFirst : List BtlReq → Option (BtlLevel × List BtlReq)
  | [] => none
  | r :: rest =>
    if 0 < r.count then some (r.level, { r with count := r.count - 1 } :: rest)
    else
      match decrementFirst rest with
      | none => none
      | some (lv, rest') => some (lv, r :: rest')

/-- The BT-level choice for one Part B slot (`part_000` lines 449–459):
take the first requirement with remaining count, drawing a random
option for `'random'` requirements; when every count is exhausted, draw
from the distinct available levels.  Returns the chosen level string,
the updated requirement list and the advanced draw counter. -/
def chooseBtl (btlReqs : List BtlReq) (btls : List String) (g : Nat → Nat) (k : Nat) :
    String × List BtlReq × Nat :=
  match decrementFirst btlReqs with
  | some (.fixed lv, reqs') => (lv, reqs', k)
  | some (.random opts, reqs') => (opts.getD (g k % opts.length) "", reqs', k + 1)
  | none => (btls.getD (g k % btls.length) "", btlReqs, k + 1)

/-- The Part B slot loop (`part_000` lines 448–462), parametrized by
the picker so that the source's picker and the spec's picker run
through the identical loop. -/
def selectPartBLoop
    (pick : List Question → (Nat → Nat) → List UnitReq → String → Nat → Nat →
      Except String Question)
    (g : Nat → Nat) (unitReqs : List UnitReq) (btls : List String) :
    List Slot → List BtlReq → List Question → (Nat → Nat) → List SelQ → Nat →
    Except String (List SelQ × (Nat → Nat) × Nat)
  | [], _, _, cnt, acc, k => .ok (acc, cnt, k)
  | s :: rest, reqs, remaining, cnt, acc, k =>
    let c := chooseBtl reqs btls g k
    match pick remaining cnt unitReqs c.1 s.unit (g c.2.2) with
    | .error e => .error e
    | .ok x =>
      selectPartBLoop pick g unitReqs btls rest c.2.1
        (remaining.filter fun r => r.id != x.id) (bump cnt x.unit)
        (acc ++ [⟨x, s.label⟩]) (c.2.2 + 1)

/-- The Part B post-selection validation (`part_000` lines 465–469):
only the minimum is re-checked. -/
def validatePartBCounts (cnt : Nat → Nat) (reqs : List UnitReq) : Option String :=
  reqs.findSome? fun r =>
    let u := r.unit
    let n := cnt r.unit
    let m := r.minCount
    if n < r.minCount then some s!"Unit {u} has {n} questions, needs at least {m}"
    else none

/-- The canonical label order of the final sort (`part_000` line 474). -/
def labelOrder : List String :=
  ["2a", "2b", "3a", "3b", "4a", "4b", "5a", "5b", "6a", "6b", "7a", "7b"]

/-- JavaScript `Array.prototype.indexOf`: the index of the first
occurrence, or `-1` when absent. -/
def jsIndexOf (l : List String) (s : String) : Int :=
  match l.findIdx? (fun x => x == s) with
  | some i => Int.ofNat i
  | none => -1

/-- The comparator of the final Part B sort (`part_000` lines 472–476)
as a total boolean preorder: `partBLe a b` holds exactly when the JS
comparator returns a non-positive number on `(a, b)`. -/
def partBLe (a b : SelQ) : Bool :=
  if a.q.unit ≠ b.q.unit then decide (a.q.unit < b.q.unit)
  else decide (jsIndexOf labelOrder a.label ≤ jsIndexOf labelOrder b.label)

/-- The comparator as a decidable relation, for the sort. -/
def partBLeP (a b : SelQ) : Prop := partBLe a b = true

instance : DecidableRel partBLeP := fun a b => instDecidableEqBool (partBLe a b) true

instance : IsTotal SelQ partBLeP :=
  ⟨fun a b => by
    unfold partBLeP partBLe
    by_cases h : a.q.unit = b.q.unit
    · rw [if_neg (by simp [h]), if_neg (by simp [h])]
      rcases Int.le_total (jsIndexOf labelOrder a.label)
        (jsIndexOf labelOrder b.label) with hle | hle
      · exact Or.inl (decide_eq_true hle)
      · exact Or.inr (decide_eq_true hle)
    · rw [if_pos h, if_pos (Ne.symm h)]
      rcases Nat.lt_or_ge a.q.unit b.q.unit with hlt | hge
      · exact Or.inl (decide_eq_true hlt)
      · exact Or.inr (decide_eq_true (lt_of_le_of_ne hge fun hh => h hh.symm))⟩

instance : IsTrans SelQ partBLeP :=
  ⟨fun a b c hab hbc => by
    unfold partBLeP partBLe at hab hbc ⊢
    by_cases h1 : a.q.unit = b.q.unit <;> by_cases h2 : b.q.unit = c.q.unit
    · rw [if_neg (by simp [h1])] at hab
      rw [if_neg (by simp [h2])] at hbc
      rw [if_neg (by simp [h1.trans h2])]
      exact decide_eq_true (le_trans (of_decide_eq_true hab) (of_decide_eq_true hbc))
    · rw [if_pos h2] at hbc
      have hbc' := of_decide_eq_true hbc
      rw [if_pos (by omega : a.q.unit ≠ c.q.unit)]
      exact decide_eq_true (by omega)
    · rw [if_pos h1] at hab
      have hab' := of_decide_eq_true hab
      rw [if_pos (by omega : a.q.unit ≠ c.q.unit)]
      exact decide_eq_true (by omega)
    · rw [if_pos h1] at hab
      rw [if_pos h2] at hbc
      have hab' := of_decide_eq_true hab
      have hbc' := of_decide_eq_true hbc
      rw [if_pos (by omega : a.q.unit ≠ c.q.unit)]
      exact decide_eq_true (by omega)⟩

/-- `selectPartBQuestions` (`part_000` lines 425–482), parametrized by
the picker.  JavaScript's `Array.prototype.sort` is stable (ES2019), so
it is modelled by a stable sort with the comparator's preorder. -/
def selectPartBQuestionsWith
    (pick : List Question → (Nat → Nat) → List UnitReq → String → Nat → Nat →
      Except String Question)
    (partB : List Question) (cfg : PaperConfig) (btlReqs : List BtlReq)
    (btls : List String) (g : Nat → Nat) (k : Nat) : Except String (List SelQ × Nat) :=
  match selectPartBLoop pick g cfg.unitRequirements btls cfg.questionLabels btlReqs
      partB (fun _ => 0) [] k with
  | .error e => .error e
  | .ok (sel, cnt, k') =>
    match validatePartBCounts cnt cfg.unitRequirements with
    | some e => .error e
    | none => .ok (List.insertionSort partBLeP sel, k')

/-- The result of a successful generation: the labeled Part A and
Part B selections. -/
structure GenResult where
  partA : List SelQ
  partB : List SelQ
deriving DecidableEq, Repr

/-- The sampling phase of `generateQuestions` (`part_000` lines
484–494): the Part A selection, the Part B selection, and the final
length checks, for an already-validated configuration. -/
def afterFeas
    (pick : List Question → (Nat → Nat) → List UnitReq → String → Nat → Nat →
      Except String Question)
    (partAQ partBQ : List Question) (cfg : PaperConfig) (btlReqs : List BtlReq)
    (btls : List String) (g : Nat → Nat) : Except String GenResult :=
  match selectPartAQuestions partAQ cfg g 0 with
  | .error e => .error e
  | .ok (selA, k) =>
    match selectPartBQuestionsWith pick partBQ cfg btlReqs btls g k with
    | .error e => .error e
    | .ok (selB, _) =>
      if selA.length ≠ 5 then .error "Failed to select exactly 5 questions for Part A"
      else if selB.length ≠ 12 then .error "Failed to select exactly 12 questions for Part B"
      else .ok ⟨selA, selB⟩

/-- `generateQuestions` of `part_000` (lines 216–495), parametrized by
the Part B picker: the pre-sampling phase `feasCheck`, then the
sampling phase. -/
def generateQuestionsWith
    (pick : List Question → (Nat → Nat) → List UnitReq → String → Nat → Nat →
      Except String Question)
    (bank : List Question) (t : String) (g : Nat → Nat) : Except String GenResult :=
  match feasCheck bank t with
  | .error e => .error e
  | .ok (partAQ, partBQ, cfg, btlReqs, btls) =>
    afterFeas pick partAQ partBQ cfg btlReqs btls g

/-- `generateQuestions` of `part_000`, with the source's picker. -/
def generateQuestions (bank : List Question) (t : String) (g : Nat → Nat) :
    Except String GenResult :=
  generateQuestionsWith pickPartB bank t g

/-- `generateQuestions` with the picker as worded by the spec. -/
def generateQuestionsSpecPick (bank : List Question) (t : String) (g : Nat → Nat) :
    Except String GenResult :=
  generateQuestionsWith pickPartBSpec bank t g

/-- The `/api/generate` route of `part_000` (lines 498–509): reject
when no pool has been uploaded, reject paper types outside the catalog
before calling `generateQuestions`, and otherwise run the engine.  The
route's response assembly and its paper-details validation concern only
the pass-through metadata omitted from `Question`. -/
def generateHandler (bank? : Option (List Question)) (t : String) (g : Nat → Nat) :
    Except String GenResult :=
  match bank? with
  | none => .error "No questions available. Please upload an Excel file first."
  | some bank =>
    if t = "mid1" ∨ t = "mid2" then generateQuestions bank t g
    else .error "Invalid paper type"

/-- One `/api/generate` request as a transition on the process-wide
server state (the `questionBank` binding).  The route's code reads
`questionBank` and never assigns it — every array it touches is a fresh
copy made by `filter`, `[...]` spread or `{...q}` spread — so the state
after the request is the state before it. -/
def applyGenerate (st : Option (List Question)) (t : String) (g : Nat → Nat) :
    Option (List Question) × Except String GenResult :=
  (st, generateHandler st t g)

/-- Pool-size gate message of `server.js` `generateQuestions` (line 153). -/
def serverInsufficientMsg : String :=
  "Insufficient questions in question bank. At least 6 questions are required."

/-- The `Unsupported case` message of `server.js` line 221. -/
def serverUnsupportedMsg (maxBTL : Nat) (btls : List String) : String :=
  let s := String.intercalate "," btls
  s!"Unsupported case: Max BTL = {maxBTL} with BTLs ({s}). Only Case i (max BTL = 6), Case ii (max BTL = 5), Case iii (max BTL = 4), Case iv (max BTL = 3 with BTL 2 & 3), or Case v (single BTL) are supported."

/-- Steps 2–3 of `server.js` `generateQuestions` (lines 172–222): the
maximum numeric BT level of the whole bank and the resulting BTL
requirement list.  The `availableBTLs` scan is the same unit-1..5
grouping as in the other variant, here over the whole bank. -/
def serverBtlRequirements (bank : List Question) : Except String (List BtlReq) :=
  let nums := btLevelsNums bank
  let btls := availableBTLs bank
  if nums = [] then .error "No valid BTL levels found in question bank"
  else
    let maxBTL := nums.foldl Nat.max 0
    if maxBTL = 6 then
      .ok [⟨.fixed "1", 1⟩, ⟨.fixed "2", 2⟩, ⟨.fixed "3", 1⟩, ⟨.fixed "4", 1⟩,
           ⟨.random ["5", "6"], 1⟩]
    else if maxBTL = 5 then
      .ok [⟨.fixed "1", 1⟩, ⟨.fixed "2", 2⟩, ⟨.fixed "3", 1⟩, ⟨.fixed "4", 1⟩,
           ⟨.random ["5", "3"], 1⟩]
    else if maxBTL = 4 then
      .ok [⟨.fixed "1", 1⟩, ⟨.fixed "2", 2⟩, ⟨.fixed "3", 1⟩, ⟨.fixed "4", 1⟩,
           ⟨.random ["3", "4"], 1⟩]
    else if maxBTL = 3 then
      .ok [⟨.fixed "1", 1⟩, ⟨.fixed "2", 2⟩, ⟨.fixed "3", 2⟩, ⟨.random ["2", "3"], 1⟩]
    else if maxBTL = 2 ∧ "2" ∈ btls ∧ "1" ∈ btls then
      .ok [⟨.fixed "1", 1⟩, ⟨.fixed "2", 5⟩]
    else if btls.length = 1 then
      .ok [⟨.fixed (btls.headD ""), 6⟩]
    else .error (serverUnsupportedMsg maxBTL btls)

/-- The pre-dispatch pipeline of `server.js` `generateQuestions`: the
pool-size gate (line 152) followed by the BTL requirement
determination, both of which run before the paper type is examined. -/
def serverPreDispatch (bank : List Question) : Except String (List BtlReq) :=
  if bank.length < 6 then .error serverInsufficientMsg
  else serverBtlRequirements bank

/-- Step 4 of `server.js` `generateQuestions` (lines 226–253): the unit
requirements per paper type; the `default` branch throws
`Invalid paper type`. -/
def serverUnitRequirements (t : String) : Except String (List UnitReq) :=
  if t = "mid1" then .ok [⟨1, 2, 3⟩, ⟨2, 2, 3⟩, ⟨3, 1, 1⟩]
  else if t = "mid2" then .ok [⟨3, 1, 1⟩, ⟨4, 2, 3⟩, ⟨5, 2, 3⟩]
  else if t = "special" then
    .ok [⟨1, 1, 2⟩, ⟨2, 1, 2⟩, ⟨3, 1, 2⟩, ⟨4, 1, 2⟩, ⟨5, 1, 2⟩]
  else .error "Invalid paper type"

/-- `server.js` `generateQuestions` up to and including the paper-type
dispatch (lines 151–254).  On success the source goes on to the
constrained random selection (`selectQuestions`); the claims settled
below about this variant concern only the phase modelled here, which
runs before any selection. -/
def serverFeasAndDispatch (bank : List Question) (t : String) :
    Except String (List BtlReq × List UnitReq) :=
  match serverPreDispatch bank with
  | .error e => .error e
  | .ok reqs =>
    match serverUnitRequirements t with
    | .error e => .error e
    | .ok ureqs => .ok (reqs, ureqs)

/-- The constant-zero random stream: every draw takes index 0. -/
def g0 : Nat → Nat := fun _ => 0

/-- A 17-question fixture pool: five BTL-1 questions matching the
`mid1` Part A quotas exactly, and twelve BTL-3 questions matching the
`mid1` Part B unit quotas exactly. -/
def P17 : List Question :=
  [⟨1, 1, "1"⟩, ⟨2, 1, "1"⟩, ⟨3, 2, "1"⟩, ⟨4, 2, "1"⟩, ⟨5, 3, "1"⟩,
   ⟨6, 1, "3"⟩, ⟨7, 1, "3"⟩, ⟨8, 1, "3"⟩, ⟨9, 1, "3"⟩, ⟨10, 1, "3"⟩,
   ⟨11, 2, "3"⟩, ⟨12, 2, "3"⟩, ⟨13, 2, "3"⟩, ⟨14, 2, "3"⟩, ⟨15, 2, "3"⟩,
   ⟨16, 3, "3"⟩, ⟨17, 3, "3"⟩]

/-- Spreadsheet rows normalizing exactly to `P17`. -/
def rows17 : List RawRow :=
  [⟨"L1", "I"⟩, ⟨"L1", "I"⟩, ⟨"L1", "II"⟩, ⟨"L1", "II"⟩, ⟨"L1", "III"⟩,
   ⟨"L3", "I"⟩, ⟨"L3", "I"⟩, ⟨"L3", "I"⟩, ⟨"L3", "I"⟩, ⟨"L3", "I"⟩,
   ⟨"L3", "II"⟩, ⟨"L3", "II"⟩, ⟨"L3", "II"⟩, ⟨"L3", "II"⟩, ⟨"L3", "II"⟩,
   ⟨"L3", "III"⟩, ⟨"L3", "III"⟩]

/-- A six-question `server.js` bank whose BT levels all fail
`parseInt`: normalization keeps them (they are not `"0"`), and the
BTL determination then fails before the paper-type dispatch. -/
def bank6x : List Question :=
  [⟨1, 1, "x"⟩, ⟨2, 1, "x"⟩, ⟨3, 1, "x"⟩, ⟨4, 1, "x"⟩, ⟨5, 1, "x"⟩, ⟨6, 1, "x"⟩]

/-- A six-question `server.js` bank with a single BT level, for which
the pre-dispatch phase succeeds (Case v). -/
def bank6ok : List Question :=
  [⟨1, 1, "1"⟩, ⟨2, 2, "1"⟩, ⟨3, 3, "1"⟩, ⟨4, 4, "1"⟩, ⟨5, 5, "1"⟩, ⟨6, 1, "1"⟩]

/-- The selection `generateQuestions` produces on `P17` for `mid1`
under the constant-zero random stream. -/
def R17 : GenResult :=
  { partA :=
      [⟨⟨1, 1, "1"⟩, "1"⟩, ⟨⟨2, 1, "1"⟩, "2"⟩, ⟨⟨3, 2, "1"⟩, "3"⟩,
       ⟨⟨4, 2, "1"⟩, "4"⟩, ⟨⟨5, 3, "1"⟩, "5"⟩]
    partB :=
      [⟨⟨6, 1, "3"⟩, "2a"⟩, ⟨⟨7, 1, "3"⟩, "2b"⟩, ⟨⟨8, 1, "3"⟩, "3a"⟩,
       ⟨⟨9, 1, "3"⟩, "3b"⟩, ⟨⟨10, 1, "3"⟩, "6b"⟩, ⟨⟨11, 2, "3"⟩, "4a"⟩,
       ⟨⟨12, 2, "3"⟩, "4b"⟩, ⟨⟨13, 2, "3"⟩, "5a"⟩, ⟨⟨14, 2, "3"⟩, "5b"⟩,
       ⟨⟨15, 2, "3"⟩, "7b"⟩, ⟨⟨16, 3, "3"⟩, "6a"⟩, ⟨⟨17, 3, "3"⟩, "7a"⟩] }

example : generateQuestions P17 "mid1" g0 = .ok R17 := by decide

example : processExcelData rows17 = P17 := by decide

example : uploadValidate rows17 = .ok P17 := by decide

example : serverPreDispatch bank6ok = .ok [⟨.fixed "1", 6⟩] := by decide

example : serverFeasAndDispatch bank6x "bogus" =
    .error "No valid BTL levels found in question bank" := by decide

/-- Claim C4: the feasibility verdict is deterministic and independent
of randomness.  `feasCheck` is a pure function of the pool and the
paper type alone (it has no random-stream argument), and whenever it
fails, `generateQuestions` reports that exact failure under every
random stream: the verdict is reproduced identically across calls on
the same unmodified pool, because all feasibility counting runs before
any sampling. -/
theorem feasCheck_failure_uniform_over_randomness (bank : List Question) (t : String)
    (e : String) (h : feasCheck bank t = .error e) :
    ∀ g₁ g₂ : Nat → Nat,
      generateQuestions bank t g₁ = .error e ∧ generateQuestions bank t g₂ = .error e := by
  intro g₁ g₂
  constructor <;> (unfold generateQuestions generateQuestionsWith; rw [h])

/-- Witness for C4: the empty pool fails feasibility for `mid1`, and two
different random streams report the identical error. -/
theorem feasCheck_failure_uniform_over_randomness_witness :
    generateQuestions [] "mid1" g0 = .error (insufficientBankMsg 0) ∧
    generateQuestions [] "mid1" (fun n => n + 7) = .error (insufficientBankMsg 0) :=
  feasCheck_failure_uniform_over_randomness [] "mid1" (insufficientBankMsg 0)
    (by decide) g0 (fun n => n + 7)

/-- Claim C7: a `/api/generate` request never changes the stored pool:
the state after the request equals the state before it whenever the
request fails, and a subsequent request on the resulting state behaves
exactly as it would have on the original state. -/
theorem generate_request_preserves_pool (st : Option (List Question)) (t : String)
    (g : Nat → Nat) (e : String) (h : (applyGenerate st t g).2 = .error e) :
    (applyGenerate st t g).1 = st ∧
    ∀ (t' : String) (g' : Nat → Nat),
      applyGenerate (applyGenerate st t g).1 t' g' = applyGenerate st t' g' :=
  ⟨rfl, fun _ _ => rfl⟩

/-- Witness for C7: a failing request (no pool uploaded) leaves the
state unchanged. -/
theorem generate_request_preserves_pool_witness :
    (applyGenerate none "mid1" g0).1 = none :=
  (generate_request_preserves_pool none "mid1" g0
    "No questions available. Please upload an Excel file first." rfl).1

/-- Claim C6 (amended): in the Part A/B variant the `/api/generate`
route rejects every paper type outside `{mid1, mid2}` with
`Invalid paper type` before `generateQuestions` runs, for every
uploaded pool; in the `server.js` variant there is no route-level
check, and the `Invalid paper type` error is reached exactly when the
pool-level pre-dispatch phase (size gate and BTL determination)
succeeds first. -/
theorem unknown_paper_type_rejected :
    (∀ (bank : List Question) (t : String) (g : Nat → Nat),
      t ≠ "mid1" → t ≠ "mid2" →
      generateHandler (some bank) t g = .error "Invalid paper type") ∧
    (∀ (bank : List Question) (t : String) (reqs : List BtlReq),
      t ≠ "mid1" → t ≠ "mid2" → t ≠ "special" →
      serverPreDispatch bank = .ok reqs →
      serverFeasAndDispatch bank t = .error "Invalid paper type") := by
  constructor
  · intro bank t g h1 h2
    unfold generateHandler
    simp [h1, h2]
  · intro bank t reqs h1 h2 h3 hok
    unfold serverFeasAndDispatch
    rw [hok]
    unfold serverUnitRequirements
    simp [h1, h2, h3]

/-- Witness for C6 (amended): both conjuncts at concrete inputs. -/
theorem unknown_paper_type_rejected_witness :
    generateHandler (some []) "midX" g0 = .error "Invalid paper type" ∧
    serverFeasAndDispatch bank6ok "midX" = .error "Invalid paper type" :=
  ⟨unknown_paper_type_rejected.1 [] "midX" g0 (by decide) (by decide),
   unknown_paper_type_rejected.2 bank6ok "midX" [⟨.fixed "1", 6⟩]
     (by decide) (by decide) (by decide) (by decide)⟩

/-- Counterexample for C6 as stated: in the `server.js` variant a
six-question pool whose BT levels are all non-numeric makes a generate
request for the unknown paper type `bogus` fail with the BTL
determination error, not with the unknown-paper-type error. -/
theorem unknown_paper_type_not_always_reported :
    serverFeasAndDispatch bank6x "bogus" =
      .error "No valid BTL levels found in question bank" ∧
    "No valid BTL levels found in question bank" ≠ "Invalid paper type" :=
  ⟨by decide, by decide⟩

/-- Claim C9: the upload handler rejects every normalized pool smaller
than 17 (the total slot count: 5 Part A labels plus 12 Part B labels),
naming the size it got, and the selection core re-validates the same
lower bound at the start of every generate call, before anything else. -/
theorem pool_size_gate :
    (∀ rows : List RawRow, (processExcelData rows).length < 17 →
      uploadValidate rows = .error (insufficientUploadMsg (processExcelData rows).length)) ∧
    (∀ (bank : List Question) (t : String) (g : Nat → Nat), bank.length < 17 →
      generateQuestions bank t g = .error (insufficientBankMsg bank.length)) := by
  constructor
  · intro rows h
    unfold uploadValidate
    simp only [if_pos h]
  · intro bank t g h
    unfold generateQuestions generateQuestionsWith feasCheck
    simp only [if_pos h]

/-- Witness for C9: both gates at the empty pool. -/
theorem pool_size_gate_witness :
    uploadValidate [] = .error (insufficientUploadMsg 0) ∧
    generateQuestions [] "mid2" g0 = .error (insufficientBankMsg 0) :=
  ⟨pool_size_gate.1 [] (by decide), pool_size_gate.2 [] "mid2" g0 (by decide)⟩

/-- Counterexample for C8 as stated: a row whose BT level cell is `L7`
survives `processExcelData` with the level `"7"`, which is not a
recognized level — normalization does not exclude rows with
unrecognized (nonzero) levels. -/
theorem normalization_keeps_unrecognized_level :
    processExcelData [⟨"L7", "I"⟩] = [⟨1, 1, "7"⟩] ∧
    validBTLevels.contains "7" = false :=
  ⟨by decide, by decide⟩

/-- Claim C1 counterexample: on the fixture pool `P17` (all Part B
questions at level 3) the `mid1` difficulty quotas demand five level-2
questions, yet the generation succeeds with a Part B selection that
contains no level-2 question at all — the difficulty quotas are not
exactly met. -/
theorem difficulty_quota_missed :
    btlRequirementsFor (partBPool P17) =
      .ok [⟨.fixed "2", 5⟩, ⟨.fixed "3", 5⟩, ⟨.random ["2", "3"], 2⟩] ∧
    generateQuestions P17 "mid1" g0 = .ok R17 ∧
    R17.partB.countP (fun s => s.q.btLevel == "2") = 0 :=
  ⟨by decide, by decide, by decide⟩

/-- Claim C8 (amended): normalization guarantees `unit ∈ [1,5]` and a
nonempty (`≠ "0"`) difficulty level for every item it keeps; rows with
an out-of-range unit or an empty level are excluded at normalization
time.  Unrecognized nonzero levels are not excluded at normalization;
they are caught by the upload handler, which rejects the whole upload,
so every pool the upload handler accepts contains only recognized
levels (1–6) and valid units. -/
theorem normalization_bounds :
    (∀ rows : List RawRow, ∀ x ∈ processExcelData rows,
      1 ≤ x.unit ∧ x.unit ≤ 5 ∧ x.btLevel ≠ "0") ∧
    (∀ (rows : List RawRow) (bank : List Question),
      uploadValidate rows = .ok bank →
      ∀ x ∈ bank, validBTLevels.contains x.btLevel = true ∧
        validUnits.contains x.unit = true) := by
  constructor
  · intro rows x hx
    unfold processExcelData at hx
    have hp := (List.mem_filter.mp hx).2
    simp only [Bool.and_eq_true, decide_eq_true_eq, bne_iff_ne, ne_eq] at hp
    exact ⟨hp.1.1, hp.1.2, hp.2⟩
  · intro rows bank hok x hx
    unfold uploadValidate at hok
    by_cases hlen : (processExcelData rows).length < 17
    · rw [if_pos hlen] at hok
      exact absurd hok (by simp)
    · rw [if_neg hlen] at hok
      by_cases hinv : ((processExcelData rows).filter fun q =>
          !(validBTLevels.contains q.btLevel) || !(validUnits.contains q.unit)).length ≠ 0
      · rw [if_pos hinv] at hok
        exact absurd hok (by simp)
      · rw [if_neg hinv] at hok
        have hbank : bank = processExcelData rows := by
          cases hok
          rfl
        subst hbank
        have hnil : ((processExcelData rows).filter fun q =>
            !(validBTLevels.contains q.btLevel) || !(validUnits.contains q.unit)) = [] :=
          List.length_eq_zero.mp (not_ne_iff.mp hinv)
        have hfalse := List.filter_eq_nil_iff.mp hnil x hx
        cases h1 : validBTLevels.contains x.btLevel <;>
          cases h2 : validUnits.contains x.unit <;> simp_all

/-- Witness for C8 (amended): the bounds at a concrete normalized row
and a concrete accepted upload. -/
theorem normalization_bounds_witness :
    (1 ≤ Question.unit ⟨1, 1, "1"⟩ ∧ Question.unit ⟨1, 1, "1"⟩ ≤ 5 ∧
      Question.btLevel ⟨1, 1, "1"⟩ ≠ "0") ∧
    (validBTLevels.contains (Question.btLevel ⟨1, 1, "1"⟩) = true ∧
      validUnits.contains (Question.unit ⟨1, 1, "1"⟩) = true) :=
  ⟨normalization_bounds.1 rows17 ⟨1, 1, "1"⟩ (by decide),
   normalization_bounds.2 rows17 P17 (by decide) ⟨1, 1, "1"⟩ (by decide)⟩

/-- A successful Part A pick comes from the working copy, has the
requested unit, and is a BTL-1 question. -/
lemma pickPartA_ok_mem (remaining : List Question) (u r : Nat) (x : Question)
    (h : pickPartA remaining u r = .ok x) :
    x ∈ remaining ∧ x.unit = u ∧ x.btLevel = "1" := by
  unfold pickPartA at h
  split at h
  · exact Except.noConfusion h
  · next x' heq =>
    cases h
    have hmem := List.getElem?_mem heq
    have hx := List.mem_filter.mp hmem
    have hp := hx.2
    simp only [Bool.and_eq_true, beq_iff_eq] at hp
    exact ⟨hx.1, hp.1, hp.2⟩

/-- A successful Part B pick (source picker) comes from the working
copy and has the slot's unit, whichever branch produced it. -/
lemma pickPartB_ok_mem (remaining : List Question) (cnt : Nat → Nat)
    (unitReqs : List UnitReq) (btl : String) (u r : Nat) (x : Question)
    (h : pickPartB remaining cnt unitReqs btl u r = .ok x) :
    x ∈ remaining ∧ x.unit = u := by
  unfold pickPartB at h
  have fromUnit : ∀ y, y ∈ remaining.filter (fun z => z.unit == u) →
      y ∈ remaining ∧ y.unit = u := by
    intro y hy
    have hy' := List.mem_filter.mp hy
    exact ⟨hy'.1, by simpa using hy'.2⟩
  split at h
  · split at h
    · exact Except.noConfusion h
    · rename_i x' heq
      cases h
      exact fromUnit x (List.getElem?_mem heq)
  · split at h
    · exact Except.noConfusion h
    · rename_i rq hfind
      split at h
      · exact Except.noConfusion h
      · rename_i x' heq
        cases h
        have hmem := List.getElem?_mem heq
        by_cases hc : rq.maxCount ≤ cnt u
        · rw [if_pos hc] at hmem
          exact fromUnit x hmem
        · rw [if_neg hc] at hmem
          exact fromUnit x (List.mem_of_mem_filter hmem)

/-- A successful Part B pick (spec picker) comes from the working copy
and has the slot's unit. -/
lemma pickPartBSpec_ok_mem (remaining : List Question) (cnt : Nat → Nat)
    (unitReqs : List UnitReq) (btl : String) (u r : Nat) (x : Question)
    (h : pickPartBSpec remaining cnt unitReqs btl u r = .ok x) :
    x ∈ remaining ∧ x.unit = u := by
  unfold pickPartBSpec at h
  have fromUnit : ∀ y, y ∈ remaining.filter (fun z => z.unit == u) →
      y ∈ remaining ∧ y.unit = u := by
    intro y hy
    have hy' := List.mem_filter.mp hy
    exact ⟨hy'.1, by simpa using hy'.2⟩
  split at h
  · split at h
    · exact Except.noConfusion h
    · rename_i x' heq
      cases h
      exact fromUnit x (List.getElem?_mem heq)
  · split at h
    · exact Except.noConfusion h
    · rename_i x' heq
      cases h
      exact fromUnit x (List.mem_of_mem_filter (List.getElem?_mem heq))

/-- The catalog has exactly the two configurations. -/
lemma paperConfig_cases (t : String) (cfg : PaperConfig)
    (h : paperConfig t = .ok cfg) : cfg = mid1Config ∨ cfg = mid2Config := by
  unfold paperConfig at h
  by_cases h1 : t = "mid1"
  · rw [if_pos h1] at h
    cases h
    exact Or.inl rfl
  · rw [if_neg h1] at h
    by_cases h2 : t = "mid2"
    · rw [if_pos h2] at h
      cases h
      exact Or.inr rfl
    · rw [if_neg h2] at h
      exact Except.noConfusion h

/-- A successful feasibility check returns the two filtered subpools,
a catalog configuration, and the available levels of the Part B pool. -/
lemma feasCheck_ok_elim (bank : List Question) (t : String)
    (pA pB : List Question) (cfg : PaperConfig) (reqs : List BtlReq)
    (btls : List String)
    (h : feasCheck bank t = .ok (pA, pB, cfg, reqs, btls)) :
    pA = partAPool bank ∧ pB = partBPool bank ∧ paperConfig t = .ok cfg ∧
    btls = availableBTLs (partBPool bank) := by
  unfold feasCheck at h
  split at h
  · exact Except.noConfusion h
  · split at h
    · exact Except.noConfusion h
    · next cfg' hcfg =>
      split at h
      · exact Except.noConfusion h
      · split at h
        · exact Except.noConfusion h
        · split at h
          · exact Except.noConfusion h
          · next reqs' hreqs =>
            cases h
            exact ⟨rfl, rfl, hcfg, rfl⟩

/-- A successful `selectPartAQuestions` run is a successful loop run
whose counts pass validation. -/
lemma selectPartAQuestions_ok_elim (partA : List Question) (cfg : PaperConfig)
    (g : Nat → Nat) (k : Nat) (sel : List SelQ) (k' : Nat)
    (h : selectPartAQuestions partA cfg g k = .ok (sel, k')) :
    ∃ cnt, selectPartALoop g cfg.partALabels partA (fun _ => 0) [] k = .ok (sel, cnt, k') ∧
      validatePartACounts cnt cfg.partAUnitRequirements = none := by
  unfold selectPartAQuestions at h
  split at h
  · exact Except.noConfusion h
  · rename_i sel0 cnt0 k0 hloop
    split at h
    · exact Except.noConfusion h
    · rename_i hval
      cases h
      exact ⟨cnt0, hloop, hval⟩

/-- A successful `selectPartBQuestionsWith` run is a successful loop run
whose counts pass validation, followed by the stable sort. -/
lemma selectPartBQuestionsWith_ok_elim
    (pick : List Question → (Nat → Nat) → List UnitReq → String → Nat → Nat →
      Except String Question)
    (partB : List Question) (cfg : PaperConfig) (btlReqs : List BtlReq)
    (btls : List String) (g : Nat → Nat) (k : Nat) (sel : List SelQ) (k' : Nat)
    (h : selectPartBQuestionsWith pick partB cfg btlReqs btls g k = .ok (sel, k')) :
    ∃ selB cnt,
      selectPartBLoop pick g cfg.unitRequirements btls cfg.questionLabels btlReqs
        partB (fun _ => 0) [] k = .ok (selB, cnt, k') ∧
      validatePartBCounts cnt cfg.unitRequirements = none ∧
      sel = List.insertionSort partBLeP selB := by
  unfold selectPartBQuestionsWith at h
  split at h
  · exact Except.noConfusion h
  · rename_i sel0 cnt0 k0 hloop
    split at h
    · exact Except.noConfusion h
    · rename_i hval
      cases h
      exact ⟨sel0, cnt0, hloop, hval, rfl⟩

/-- Dissect a successful `generateQuestionsWith` run into its stages:
the catalog configuration, the Part A loop result (already equal to the
returned Part A), the Part B loop result, and the final stable sort,
together with the validated lengths. -/
lemma generateQuestionsWith_ok_elim
    (pick : List Question → (Nat → Nat) → List UnitReq → String → Nat → Nat →
      Except String Question)
    (bank : List Question) (t : String) (g : Nat → Nat) (res : GenResult)
    (h : generateQuestionsWith pick bank t g = .ok res) :
    ∃ (cfg : PaperConfig) (btlReqs : List BtlReq) (cntA cntB : Nat → Nat)
      (kA kB : Nat) (selB : List SelQ),
      paperConfig t = .ok cfg ∧
      selectPartALoop g cfg.partALabels (partAPool bank) (fun _ => 0) [] 0 =
        .ok (res.partA, cntA, kA) ∧
      selectPartBLoop pick g cfg.unitRequirements (availableBTLs (partBPool bank))
        cfg.questionLabels btlReqs (partBPool bank) (fun _ => 0) [] kA =
        .ok (selB, cntB, kB) ∧
      res.partB = List.insertionSort partBLeP selB ∧
      res.partA.length = 5 ∧ res.partB.length = 12 := by
  unfold generateQuestionsWith at h
  split at h
  · exact Except.noConfusion h
  · rename_i pA pB cfg reqs btls hfeas
    obtain ⟨hpA, hpB, hcfg, hbtls⟩ := feasCheck_ok_elim bank t pA pB cfg reqs btls hfeas
    subst hpA
    subst hpB
    subst hbtls
    unfold afterFeas at h
    split at h
    · exact Except.noConfusion h
    · rename_i selA kA hA
      split at h
      · exact Except.noConfusion h
      · rename_i selBs kB hB
        split at h
        · exact Except.noConfusion h
        · rename_i h5
          split at h
          · exact Except.noConfusion h
          · rename_i h12
            cases h
            obtain ⟨cntA, hloopA, hvalA⟩ :=
              selectPartAQuestions_ok_elim (partAPool bank) cfg g 0 selA kA hA
            obtain ⟨selB, cntB, hloopB, hvalB, hsort⟩ :=
              selectPartBQuestionsWith_ok_elim pick (partBPool bank) cfg reqs
                (availableBTLs (partBPool bank)) g kA selBs kB hB
            exact ⟨cfg, reqs, cntA, cntB, kA, kB, selB, hcfg, hloopA, hloopB, hsort,
              not_ne_iff.mp h5, not_ne_iff.mp h12⟩

/-- Invariants of the Part A slot loop: on success, the selected units
extend the accumulator by exactly the slot units in order; every
selected entry comes from the accumulator or is a BTL-1 question of the
working copy; and the selected ids are duplicate-free whenever the
accumulator's ids are duplicate-free and disjoint from the working
copy. -/
lemma selectPartALoop_props (g : Nat → Nat) :
    ∀ (labels : List Slot) (remaining : List Question) (cnt : Nat → Nat)
      (acc : List SelQ) (k : Nat) (sel : List SelQ) (cnt' : Nat → Nat) (k' : Nat),
      selectPartALoop g labels remaining cnt acc k = .ok (sel, cnt', k') →
      ((sel.map fun s => s.q.unit) =
        (acc.map fun s => s.q.unit) ++ labels.map Slot.unit) ∧
      (∀ s ∈ sel, s ∈ acc ∨ (s.q ∈ remaining ∧ s.q.btLevel = "1")) ∧
      ((acc.map fun s => s.q.id).Nodup →
        (∀ z ∈ remaining, z.id ∉ acc.map fun s => s.q.id) →
        (sel.map fun s => s.q.id).Nodup) := by
  intro labels
  induction labels with
  | nil =>
    intro remaining cnt acc k sel cnt' k' h
    simp only [selectPartALoop] at h
    cases h
    refine ⟨by simp, fun s hs => Or.inl hs, fun hnd _ => hnd⟩
  | cons s rest ih =>
    intro remaining cnt acc k sel cnt' k' h
    simp only [selectPartALoop] at h
    split at h
    · exact Except.noConfusion h
    · rename_i x hx
      obtain ⟨hxmem, hxunit, hxbtl⟩ := pickPartA_ok_mem remaining s.unit (g k) x hx
      obtain ⟨ih1, ih2, ih3⟩ := ih (remaining.filter fun z => z.id != x.id)
        (bump cnt x.unit) (acc ++ [⟨x, s.label⟩]) (k + 1) sel cnt' k' h
      refine ⟨?_, ?_, ?_⟩
      · rw [ih1]
        simp [hxunit]
      · intro s' hs'
        rcases ih2 s' hs' with hacc | ⟨hmem, hbtl⟩
        · rcases List.mem_append.mp hacc with h1 | h1
          · exact Or.inl h1
          · have : s' = ⟨x, s.label⟩ := by simpa using h1
            subst this
            exact Or.inr ⟨hxmem, hxbtl⟩
        · exact Or.inr ⟨List.mem_of_mem_filter hmem, hbtl⟩
      · intro hnd hdis
        apply ih3
        · rw [List.map_append, List.nodup_append]
          refine ⟨hnd, by simp, ?_⟩
          intro a ha hb
          have hax : a = x.id := by simpa using hb
          subst hax
          exact hdis x hxmem ha
        · intro z hz
          have hzr := List.mem_of_mem_filter hz
          have hzid : z.id ≠ x.id := by
            have := (List.mem_filter.mp hz).2
            simpa using this
          rw [List.map_append]
          intro hmem2
          rcases List.mem_append.mp hmem2 with h1 | h1
          · exact hdis z hzr h1
          · exact hzid (by simpa using h1)

/-- Invariants of the Part B slot loop, for any picker that returns an
element of the working copy with the slot's unit (both `pickPartB` and
`pickPartBSpec` do): same three invariants as for Part A, without the
BTL clause. -/
lemma selectPartBLoop_props
    (pick : List Question → (Nat → Nat) → List UnitReq → String → Nat → Nat →
      Except String Question)
    (g : Nat → Nat) (unitReqs : List UnitReq) (btls : List String)
    (hpick : ∀ remaining cnt btl u r x, pick remaining cnt unitReqs btl u r = .ok x →
      x ∈ remaining ∧ x.unit = u) :
    ∀ (labels : List Slot) (reqs : List BtlReq) (remaining : List Question)
      (cnt : Nat → Nat) (acc : List SelQ) (k : Nat) (sel : List SelQ)
      (cnt' : Nat → Nat) (k' : Nat),
      selectPartBLoop pick g unitReqs btls labels reqs remaining cnt acc k =
        .ok (sel, cnt', k') →
      ((sel.map fun s => s.q.unit) =
        (acc.map fun s => s.q.unit) ++ labels.map Slot.unit) ∧
      (∀ s ∈ sel, s ∈ acc ∨ s.q ∈ remaining) ∧
      ((acc.map fun s => s.q.id).Nodup →
        (∀ z ∈ remaining, z.id ∉ acc.map fun s => s.q.id) →
        (sel.map fun s => s.q.id).Nodup) := by
  intro labels
  induction labels with
  | nil =>
    intro reqs remaining cnt acc k sel cnt' k' h
    simp only [selectPartBLoop] at h
    cases h
    refine ⟨by simp, fun s hs => Or.inl hs, fun hnd _ => hnd⟩
  | cons s rest ih =>
    intro reqs remaining cnt acc k sel cnt' k' h
    simp only [selectPartBLoop] at h
    split at h
    · exact Except.noConfusion h
    · rename_i x hx
      obtain ⟨hxmem, hxunit⟩ := hpick remaining cnt _ s.unit _ x hx
      obtain ⟨ih1, ih2, ih3⟩ := ih _ (remaining.filter fun z => z.id != x.id)
        (bump cnt x.unit) (acc ++ [⟨x, s.label⟩]) _ sel cnt' k' h
      refine ⟨?_, ?_, ?_⟩
      · rw [ih1]
        simp [hxunit]
      · intro s' hs'
        rcases ih2 s' hs' with hacc | hmem
        · rcases List.mem_append.mp hacc with h1 | h1
          · exact Or.inl h1
          · have : s' = ⟨x, s.label⟩ := by simpa using h1
            subst this
            exact Or.inr hxmem
        · exact Or.inr (List.mem_of_mem_filter hmem)
      · intro hnd hdis
        apply ih3
        · rw [List.map_append, List.nodup_append]
          refine ⟨hnd, by simp, ?_⟩
          intro a ha hb
          have hax : a = x.id := by simpa using hb
          subst hax
          exact hdis x hxmem ha
        · intro z hz
          have hzr := List.mem_of_mem_filter hz
          have hzid : z.id ≠ x.id := by
            have := (List.mem_filter.mp hz).2
            simpa using this
          rw [List.map_append]
          intro hmem2
          rcases List.mem_append.mp hmem2 with h1 | h1
          · exact hdis z hzr h1
          · exact hzid (by simpa using h1)

/-- Counting selected entries by unit equals counting over the unit
projection. -/
lemma countP_unit_eq (l : List SelQ) (u : Nat) :
    l.countP (fun s => s.q.unit == u) =
      (l.map fun s => s.q.unit).countP (fun v => v == u) := by
  induction l with
  | nil => rfl
  | cons a l ih => simp [List.countP_cons, ih]

/-- Claim C1 (amended): a successful generation is never partially
filled or malformed — Part A has exactly 5 entries and Part B exactly
12, every Part A unit quota is met exactly, and every Part B unit
quota's actual count lies within `[min, max]`.  (The difficulty quotas
are only targets: the fallback may miss them, see the counterexample.) -/
theorem generateQuestions_ok_shape (bank : List Question) (t : String) (g : Nat → Nat)
    (res : GenResult) (h : generateQuestions bank t g = .ok res) :
    res.partA.length = 5 ∧ res.partB.length = 12 ∧
    ∃ cfg, paperConfig t = .ok cfg ∧
      (∀ r ∈ cfg.partAUnitRequirements,
        res.partA.countP (fun s => s.q.unit == r.unit) = r.count) ∧
      (∀ r ∈ cfg.unitRequirements,
        r.minCount ≤ res.partB.countP (fun s => s.q.unit == r.unit) ∧
        res.partB.countP (fun s => s.q.unit == r.unit) ≤ r.maxCount) := by
  obtain ⟨cfg, btlReqs, cntA, cntB, kA, kB, selB, hcfg, hA, hB, hsort, h5, h12⟩ :=
    generateQuestionsWith_ok_elim pickPartB bank t g res h
  have hApm := (selectPartALoop_props g cfg.partALabels (partAPool bank)
    (fun _ => 0) [] 0 res.partA cntA kA hA).1
  have hBpm := (selectPartBLoop_props pickPartB g cfg.unitRequirements
    (availableBTLs (partBPool bank))
    (fun remaining cnt btl u r x hx =>
      pickPartB_ok_mem remaining cnt cfg.unitRequirements btl u r x hx)
    cfg.questionLabels btlReqs (partBPool bank) (fun _ => 0) [] kA selB cntB kB hB).1
  have hApm' : (res.partA.map fun s => s.q.unit) = cfg.partALabels.map Slot.unit := by
    simpa using hApm
  have hBpm' : (selB.map fun s => s.q.unit) = cfg.questionLabels.map Slot.unit := by
    simpa using hBpm
  have hperm : List.Perm res.partB selB := by
    rw [hsort]
    exact List.perm_insertionSort _ selB
  refine ⟨h5, h12, cfg, hcfg, ?_, ?_⟩
  · intro r hr
    have hc : res.partA.countP (fun s => s.q.unit == r.unit) =
        (cfg.partALabels.map Slot.unit).countP (fun v => v == r.unit) := by
      rw [countP_unit_eq, hApm']
    rw [hc]
    rcases paperConfig_cases t cfg hcfg with rfl | rfl
    · simp only [mid1Config] at hr ⊢
      fin_cases hr <;> decide
    · simp only [mid2Config] at hr ⊢
      fin_cases hr <;> decide
  · intro r hr
    have hc : res.partB.countP (fun s => s.q.unit == r.unit) =
        (cfg.questionLabels.map Slot.unit).countP (fun v => v == r.unit) := by
      rw [hperm.countP_eq, countP_unit_eq, hBpm']
    rw [hc]
    rcases paperConfig_cases t cfg hcfg with rfl | rfl
    · simp only [mid1Config] at hr ⊢
      fin_cases hr <;> exact ⟨by decide, by decide⟩
    · simp only [mid2Config] at hr ⊢
      fin_cases hr <;> exact ⟨by decide, by decide⟩

/-- Witness for C1 (amended): the concrete successful run has the
validated lengths. -/
theorem generateQuestions_ok_shape_witness :
    R17.partA.length = 5 ∧ R17.partB.length = 12 :=
  ⟨(generateQuestions_ok_shape P17 "mid1" g0 R17 (by decide)).1,
   (generateQuestions_ok_shape P17 "mid1" g0 R17 (by decide)).2.1⟩

/-- Claim C10: any successful generation splits the output by level:
every Part A question has BT level exactly `"1"` and every Part B
question has a BT level different from `"1"`. -/
theorem generateQuestions_parts_level_split (bank : List Question) (t : String)
    (g : Nat → Nat) (res : GenResult) (h : generateQuestions bank t g = .ok res) :
    (∀ s ∈ res.partA, s.q.btLevel = "1") ∧ (∀ s ∈ res.partB, s.q.btLevel ≠ "1") := by
  obtain ⟨cfg, btlReqs, cntA, cntB, kA, kB, selB, hcfg, hA, hB, hsort, h5, h12⟩ :=
    generateQuestionsWith_ok_elim pickPartB bank t g res h
  have hAmem := (selectPartALoop_props g cfg.partALabels (partAPool bank)
    (fun _ => 0) [] 0 res.partA cntA kA hA).2.1
  have hBmem := (selectPartBLoop_props pickPartB g cfg.unitRequirements
    (availableBTLs (partBPool bank))
    (fun remaining cnt btl u r x hx =>
      pickPartB_ok_mem remaining cnt cfg.unitRequirements btl u r x hx)
    cfg.questionLabels btlReqs (partBPool bank) (fun _ => 0) [] kA selB cntB kB hB).2.1
  have hperm : List.Perm res.partB selB := by
    rw [hsort]
    exact List.perm_insertionSort _ selB
  constructor
  · intro s hs
    rcases hAmem s hs with habs | ⟨_, hbtl⟩
    · exact absurd habs (List.not_mem_nil s)
    · exact hbtl
  · intro s hs
    rcases hBmem s (hperm.mem_iff.mp hs) with habs | hmem
    · exact absurd habs (List.not_mem_nil s)
    · have hp := (List.mem_filter.mp hmem).2
      simp only [Bool.and_eq_true, bne_iff_ne, ne_eq] at hp
      exact hp.1.1

/-- Witness for C10: the concrete run's output checked entrywise. -/
theorem generateQuestions_parts_level_split_witness :
    (R17.partA.all fun s => s.q.btLevel == "1") = true ∧
    (R17.partB.all fun s => s.q.btLevel != "1") = true := by
  have H := generateQuestions_parts_level_split P17 "mid1" g0 R17 (by decide)
  constructor
  · rw [List.all_eq_true]
    intro s hs
    exact beq_iff_eq.mpr (H.1 s hs)
  · rw [List.all_eq_true]
    intro s hs
    exact bne_iff_ne.mpr (H.2 s hs)

/-- Claim C3: for a pool with pairwise-distinct ids (the data-model
invariant of normalized pools, where ids are successive row numbers),
every successful selection has pairwise-distinct item ids across Part A
and Part B together. -/
theorem generateQuestions_ids_nodup (bank : List Question) (t : String) (g : Nat → Nat)
    (res : GenResult) (hids : (bank.map Question.id).Nodup)
    (h : generateQuestions bank t g = .ok res) :
    ((res.partA ++ res.partB).map fun s => s.q.id).Nodup := by
  obtain ⟨cfg, btlReqs, cntA, cntB, kA, kB, selB, hcfg, hA, hB, hsort, h5, h12⟩ :=
    generateQuestionsWith_ok_elim pickPartB bank t g res h
  have hperm : List.Perm res.partB selB := by
    rw [hsort]
    exact List.perm_insertionSort _ selB
  obtain ⟨-, hAmem, hAnd⟩ := selectPartALoop_props g cfg.partALabels (partAPool bank)
    (fun _ => 0) [] 0 res.partA cntA kA hA
  obtain ⟨-, hBmem, hBnd⟩ := selectPartBLoop_props pickPartB g cfg.unitRequirements
    (availableBTLs (partBPool bank))
    (fun remaining cnt btl u r x hx =>
      pickPartB_ok_mem remaining cnt cfg.unitRequirements btl u r x hx)
    cfg.questionLabels btlReqs (partBPool bank) (fun _ => 0) [] kA selB cntB kB hB
  have hAnodup : (res.partA.map fun s => s.q.id).Nodup := hAnd (by simp) (by simp)
  have hBnodup : (res.partB.map fun s => s.q.id).Nodup :=
    ((hperm.map fun s => s.q.id).nodup_iff).mpr (hBnd (by simp) (by simp))
  rw [List.map_append, List.nodup_append]
  refine ⟨hAnodup, hBnodup, ?_⟩
  intro idv hia hib
  obtain ⟨a, ha, haid⟩ := List.mem_map.mp hia
  obtain ⟨b, hb, hbid⟩ := List.mem_map.mp hib
  rcases hAmem a ha with habs | ⟨hamem, ha1⟩
  · exact absurd habs (List.not_mem_nil a)
  rcases hBmem b (hperm.mem_iff.mp hb) with habs | hbmem
  · exact absurd habs (List.not_mem_nil b)
  have hb1 : b.q.btLevel ≠ "1" := by
    have hp := (List.mem_filter.mp hbmem).2
    simp only [Bool.and_eq_true, bne_iff_ne, ne_eq] at hp
    exact hp.1.1
  have haq : a.q ∈ bank := List.mem_of_mem_filter hamem
  have hbq : b.q ∈ bank := List.mem_of_mem_filter hbmem
  have heqq : a.q = b.q :=
    List.inj_on_of_nodup_map hids haq hbq (haid.trans hbid.symm)
  exact hb1 (heqq ▸ ha1)

/-- Witness for C3: the ids of the concrete run are pairwise distinct. -/
theorem generateQuestions_ids_nodup_witness :
    ((R17.partA ++ R17.partB).map fun s => s.q.id).Nodup :=
  generateQuestions_ids_nodup P17 "mid1" g0 R17 (by decide) (by decide)

/-- The boolean comparator holds exactly when the unit is strictly
smaller, or the units tie and the canonical label index is not larger. -/
lemma partBLe_iff (a b : SelQ) :
    partBLe a b = true ↔
      (a.q.unit < b.q.unit ∨ (a.q.unit = b.q.unit ∧
        jsIndexOf labelOrder a.label ≤ jsIndexOf labelOrder b.label)) := by
  unfold partBLe
  by_cases h : a.q.unit = b.q.unit
  · rw [if_neg (by simp [h])]
    simp [h, decide_eq_true_eq]
  · rw [if_pos h]
    simp [decide_eq_true_eq, h]

/-- Claim C5: every successful Part B selection is sorted by unit
ascending, ties broken by the canonical label order
`2a,2b,3a,3b,4a,4b,5a,5b,6a,6b,7a,7b` (the comparator of the final
sort).  The catalog always declares this label order, so the
no-canonical-order case of the claim does not arise. -/
theorem generateQuestions_partB_sorted (bank : List Question) (t : String)
    (g : Nat → Nat) (res : GenResult) (h : generateQuestions bank t g = .ok res) :
    res.partB.Pairwise (fun a b => a.q.unit < b.q.unit ∨
      (a.q.unit = b.q.unit ∧
        jsIndexOf labelOrder a.label ≤ jsIndexOf labelOrder b.label)) := by
  obtain ⟨cfg, btlReqs, cntA, cntB, kA, kB, selB, hcfg, hA, hB, hsort, h5, h12⟩ :=
    generateQuestionsWith_ok_elim pickPartB bank t g res h
  rw [hsort]
  have hs := List.sorted_insertionSort partBLeP selB
  exact hs.imp fun hab => (partBLe_iff _ _).mp hab

/-- Witness for C5: the concrete run's Part B is sorted. -/
theorem generateQuestions_partB_sorted_witness :
    R17.partB.Pairwise (fun a b => a.q.unit < b.q.unit ∨
      (a.q.unit = b.q.unit ∧
        jsIndexOf labelOrder a.label ≤ jsIndexOf labelOrder b.label)) :=
  generateQuestions_partB_sorted P17 "mid1" g0 R17 (by decide)

/-- When the slot's unit has a requirement entry and its counter is
still below `maxCount`, the source picker and the spec picker coincide:
the extra fallback trigger of the source (`unitCount[unit] >= maxCount`)
is not taken. -/
lemma pickPartB_eq_spec (remaining : List Question) (cnt : Nat → Nat)
    (unitReqs : List UnitReq) (btl : String) (u r : Nat) (rq : UnitReq)
    (hfind : unitReqs.find? (fun x => x.unit == u) = some rq)
    (hcnt : cnt u < rq.maxCount) :
    pickPartB remaining cnt unitReqs btl u r =
      pickPartBSpec remaining cnt unitReqs btl u r := by
  unfold pickPartB pickPartBSpec
  by_cases h0 :
      ((remaining.filter fun x => x.unit == u).filter fun x => x.btLevel == btl).length = 0
  · rw [if_pos h0, if_pos h0]
  · rw [if_neg h0, if_neg h0]
    simp only [hfind]
    rw [if_neg (by omega : ¬ rq.maxCount ≤ cnt u)]

/-- The Part B slot loop gives identical runs for the source picker and
the spec picker whenever, for every unit still required by the
remaining slots, the unit's counter plus the number of its remaining
slots stays within the unit's `maxCount`. -/
lemma selectPartBLoop_eq_spec (g : Nat → Nat) (unitReqs : List UnitReq)
    (btls : List String) :
    ∀ (labels : List Slot) (reqs : List BtlReq) (remaining : List Question)
      (cnt : Nat → Nat) (acc : List SelQ) (k : Nat),
      (∀ u, 0 < labels.countP (fun s => s.unit == u) →
        ∃ rq, unitReqs.find? (fun x => x.unit == u) = some rq ∧
          cnt u + labels.countP (fun s => s.unit == u) ≤ rq.maxCount) →
      selectPartBLoop pickPartB g unitReqs btls labels reqs remaining cnt acc k =
      selectPartBLoop pickPartBSpec g unitReqs btls labels reqs remaining cnt acc k := by
  intro labels
  induction labels with
  | nil => intro reqs remaining cnt acc k _; rfl
  | cons s rest ih =>
    intro reqs remaining cnt acc k H
    have hpos : 0 < (s :: rest).countP (fun x => x.unit == s.unit) := by
      rw [List.countP_cons]
      simp
    obtain ⟨rq, hfind, hbound⟩ := H s.unit hpos
    have hcnt : cnt s.unit < rq.maxCount := by omega
    simp only [selectPartBLoop]
    rw [pickPartB_eq_spec remaining cnt unitReqs _ s.unit _ rq hfind hcnt]
    cases hp : pickPartBSpec remaining cnt unitReqs
        (chooseBtl reqs btls g k).1 s.unit (g (chooseBtl reqs btls g k).2.2) with
    | error e => rfl
    | ok x =>
      show selectPartBLoop pickPartB g unitReqs btls rest (chooseBtl reqs btls g k).2.1
          (remaining.filter fun r => r.id != x.id) (bump cnt x.unit)
          (acc ++ [⟨x, s.label⟩]) ((chooseBtl reqs btls g k).2.2 + 1) =
        selectPartBLoop pickPartBSpec g unitReqs btls rest (chooseBtl reqs btls g k).2.1
          (remaining.filter fun r => r.id != x.id) (bump cnt x.unit)
          (acc ++ [⟨x, s.label⟩]) ((chooseBtl reqs btls g k).2.2 + 1)
      apply ih
      intro u hu
      have hxu : x.unit = s.unit :=
        (pickPartBSpec_ok_mem remaining cnt unitReqs _ s.unit _ x hp).2
      have hu' : 0 < (s :: rest).countP (fun t => t.unit == u) := by
        rw [List.countP_cons]
        exact Nat.lt_of_lt_of_le hu (Nat.le_add_right _ _)
      obtain ⟨rq', hfind', hbound'⟩ := H u hu'
      refine ⟨rq', hfind', ?_⟩
      rw [hxu]
      unfold bump
      by_cases huu : u = s.unit
      · subst huu
        have hc : (s :: rest).countP (fun t => t.unit == s.unit) =
            rest.countP (fun t => t.unit == s.unit) + 1 := by
          rw [List.countP_cons]
          simp
        rw [hc] at hbound'
        have hif : (if s.unit = s.unit then cnt s.unit + 1 else cnt s.unit) =
            cnt s.unit + 1 := if_pos rfl
        rw [hif]
        omega
      · have hc : (s :: rest).countP (fun t => t.unit == u) =
            rest.countP (fun t => t.unit == u) := by
          rw [List.countP_cons]
          have hb : (s.unit == u) = false := by
            simp [Ne.symm huu]
          simp [hb]
        rw [hc] at hbound'
        rw [if_neg huu]
        exact hbound'

/-- For the `mid1` slot list, each required unit has a requirement
entry and its slot count equals the unit's `maxCount`. -/
lemma mid1_labels_bound :
    ∀ u, 0 < (mid1Config.questionLabels.countP fun s => s.unit == u) →
      ∃ rq, mid1Config.unitRequirements.find? (fun x => x.unit == u) = some rq ∧
        0 + (mid1Config.questionLabels.countP fun s => s.unit == u) ≤ rq.maxCount := by
  intro u hu
  obtain ⟨s, hs, hsu⟩ := List.countP_pos_iff.mp hu
  have hcase : u = 1 ∨ u = 2 ∨ u = 3 := by
    simp only [mid1Config, List.mem_cons, List.not_mem_nil, or_false] at hs
    rcases hs with rfl|rfl|rfl|rfl|rfl|rfl|rfl|rfl|rfl|rfl|rfl|rfl <;> simp_all
  rcases hcase with rfl | rfl | rfl
  · exact ⟨⟨1, 5, 5⟩, by decide, by decide⟩
  · exact ⟨⟨2, 5, 5⟩, by decide, by decide⟩
  · exact ⟨⟨3, 2, 2⟩, by decide, by decide⟩

/-- For the `mid2` slot list, each required unit has a requirement
entry and its slot count equals the unit's `maxCount`. -/
lemma mid2_labels_bound :
    ∀ u, 0 < (mid2Config.questionLabels.countP fun s => s.unit == u) →
      ∃ rq, mid2Config.unitRequirements.find? (fun x => x.unit == u) = some rq ∧
        0 + (mid2Config.questionLabels.countP fun s => s.unit == u) ≤ rq.maxCount := by
  intro u hu
  obtain ⟨s, hs, hsu⟩ := List.countP_pos_iff.mp hu
  have hcase : u = 3 ∨ u = 4 ∨ u = 5 := by
    simp only [mid2Config, List.mem_cons, List.not_mem_nil, or_false] at hs
    rcases hs with rfl|rfl|rfl|rfl|rfl|rfl|rfl|rfl|rfl|rfl|rfl|rfl <;> simp_all
  rcases hcase with rfl | rfl | rfl
  · exact ⟨⟨3, 2, 2⟩, by decide, by decide⟩
  · exact ⟨⟨4, 5, 5⟩, by decide, by decide⟩
  · exact ⟨⟨5, 5, 5⟩, by decide, by decide⟩

/-- Claim C2: on every pool, paper type and random stream, the engine
behaves exactly as the spec's picker prescribes — for each Part B slot
it picks (by the slot's random index) from the remaining items matching
the slot's unit and the currently-needed difficulty, falls back to the
items matching only the unit exactly when no item matches both, and
fails exactly when that relaxed set is also empty.  The source's extra
fallback trigger (`unitCount[unit] >= maxCount`) never fires, because
in both catalog configurations the number of slots per unit equals that
unit's `maxCount`, so the counter stays below it at every pick. -/
theorem generateQuestions_matches_spec_fallback (bank : List Question) (t : String)
    (g : Nat → Nat) :
    generateQuestions bank t g = generateQuestionsSpecPick bank t g := by
  unfold generateQuestions generateQuestionsSpecPick generateQuestionsWith
  cases hfeas : feasCheck bank t with
  | error e => rfl
  | ok tup =>
    obtain ⟨pA, pB, cfg, reqs, btls⟩ := tup
    obtain ⟨-, -, hcfg, -⟩ := feasCheck_ok_elim bank t pA pB cfg reqs btls hfeas
    show afterFeas pickPartB pA pB cfg reqs btls g =
      afterFeas pickPartBSpec pA pB cfg reqs btls g
    unfold afterFeas
    cases hA : selectPartAQuestions pA cfg g 0 with
    | error e => rfl
    | ok pair =>
      obtain ⟨selA, kA⟩ := pair
      have hH : ∀ u, 0 < (cfg.questionLabels.countP fun s => s.unit == u) →
          ∃ rq, cfg.unitRequirements.find? (fun x => x.unit == u) = some rq ∧
            0 + (cfg.questionLabels.countP fun s => s.unit == u) ≤ rq.maxCount := by
        rcases paperConfig_cases t cfg hcfg with rfl | rfl
        · exact mid1_labels_bound
        · exact mid2_labels_bound
      have hBeq : selectPartBQuestionsWith pickPartB pB cfg reqs btls g kA =
          selectPartBQuestionsWith pickPartBSpec pB cfg reqs btls g kA := by
        unfold selectPartBQuestionsWith
        rw [selectPartBLoop_eq_spec g cfg.unitRequirements btls cfg.questionLabels reqs pB
          (fun _ => 0) [] kA hH]
      exact congrArg (fun z : Except String (List SelQ × Nat) =>
        match z with
        | .error e => (.error e : Except String GenResult)
        | .ok (selB, _) =>
          if selA.length ≠ 5 then .error "Failed to select exactly 5 questions for Part A"
          else if selB.length ≠ 12 then
            .error "Failed to select exactly 12 questions for Part B"
          else .ok ⟨selA, selB⟩) hBeq

/-- The records produced from enumerated rows have strictly increasing
ids, whatever the starting index. -/
lemma normalize_enumFrom_pairwise (rows : List RawRow) :
    ∀ n : Nat, ((rows.enumFrom n).map fun p => normalizeRow p.1 p.2).Pairwise
      (fun a b => a.id < b.id) := by
  induction rows with
  | nil => intro n; simp
  | cons r rest ih =>
    intro n
    refine List.Pairwise.cons ?_ (ih (n + 1))
    intro b hb
    obtain ⟨p, hp, rfl⟩ := List.mem_map.mp hb
    have hle : n + 1 ≤ p.1 := List.le_fst_of_mem_enumFrom hp
    show (normalizeRow n r).id < (normalizeRow p.1 p.2).id
    simp only [normalizeRow]
    omega

/-- Normalization always yields a pool with pairwise-distinct ids (ids
are successive row numbers): the id-uniqueness invariant assumed by the
duplicate-freedom theorem holds for every pool the system can store. -/
lemma processExcelData_ids_nodup (rows : List RawRow) :
    ((processExcelData rows).map Question.id).Nodup := by
  unfold processExcelData
  have hpw : ((rows.enum.map fun p => normalizeRow p.1 p.2).Pairwise
      (fun a b => a.id < b.id)) := normalize_enumFrom_pairwise rows 0
  have hfil := hpw.filter
    (fun q => decide (1 ≤ q.unit) && decide (q.unit ≤ 5) && q.btLevel != "0")
  exact (List.Pairwise.map Question.id (fun a b hab => hab) hfil).imp Nat.ne_of_lt
